import Mathlib

set_option maxHeartbeats 2000000
set_option maxRecDepth 16000

namespace AIScraper

/-- JavaScript strings are modelled as lists of characters. -/
abbrev JStr := List Char

/-- Convert a Lean string literal to the JS string model. -/
def jstr (s : String) : JStr := s.data

/-- Decimal digit test (the regex class backslash-d). -/
def isDigitCh (c : Char) : Bool := '0' ≤ c && c ≤ '9'

/-- Whitespace as matched by the JS regex class backslash-s (the common
members: space, tab, newline, carriage return, vertical tab, form feed). -/
def isJsWs (c : Char) : Bool :=
  c == ' ' || c == '\t' || c == '\n' || c == '\r' || c == '\x0b' || c == '\x0c'

/-- startsWithL pat s is true when pat is a leading run of s. -/
def startsWithL : JStr → JStr → Bool
  | [], _ => true
  | _ :: _, [] => false
  | p :: ps, c :: cs => p == c && startsWithL ps cs

/-- containsSub s pat models JS s.includes(pat). -/
def containsSub (s pat : JStr) : Bool :=
  match s with
  | [] => pat.isEmpty
  | _ :: rest => startsWithL pat s || containsSub rest pat

/-- afterFirst s pat models s.indexOf(pat): none when the index is -1,
otherwise the suffix of s that follows the first occurrence of pat. -/
def afterFirst (s pat : JStr) : Option JStr :=
  match s with
  | [] => if pat.isEmpty then some [] else none
  | _ :: rest => if startsWithL pat s then some (s.drop pat.length) else afterFirst rest pat

/-- trimL models JS String.trim on both ends. -/
def trimL (s : JStr) : JStr :=
  ((s.dropWhile isJsWs).reverse.dropWhile isJsWs).reverse

/-- joinWith sep parts models JS Array.join(sep). -/
def joinWith (sep : JStr) : List JStr → JStr
  | [] => []
  | [x] => x
  | x :: rest => x ++ sep ++ joinWith sep rest

/-- Decimal digits of a natural number, most significant first (fuel-driven). -/
def natCharsAux : Nat → Nat → JStr
  | 0, _ => []
  | fuel + 1, n =>
    if n < 10 then [Char.ofNat (48 + n)]
    else natCharsAux fuel (n / 10) ++ [Char.ofNat (48 + n % 10)]

/-- Decimal rendering of a natural number, as JS String(n) for integers. -/
def natChars (n : Nat) : JStr := natCharsAux (n + 1) n

/-- Decimal rendering of an integer, as JS String(i) / JSON.stringify(i). -/
def intChars (i : Int) : JStr :=
  if i < 0 then '-' :: natChars i.natAbs else natChars i.natAbs

/-- A JSON-like JavaScript value: the dynamic records this program passes
around.  Numbers are modelled by the integer fragment (every number the
program's own code paths construct or compare is an integer or a string). -/
inductive JValue : Type where
  | null : JValue
  | bool (b : Bool) : JValue
  | num (n : Int) : JValue
  | str (s : JStr) : JValue
  | arr (elems : List JValue) : JValue
  | obj (fields : List (JStr × JValue)) : JValue

/-- Hex digit for low-codepoint JSON escapes. -/
def hexDigit (n : Nat) : Char :=
  if n < 10 then Char.ofNat (48 + n) else Char.ofNat (87 + n)

/-- JSON string-body escaping as performed by JSON.stringify. -/
def escapeJson : JStr → JStr
  | [] => []
  | c :: rest =>
    (if c == '"' then ['\\', '"']
     else if c == '\\' then ['\\', '\\']
     else if c == '\n' then ['\\', 'n']
     else if c == '\r' then ['\\', 'r']
     else if c == '\t' then ['\\', 't']
     else if c == '\x08' then ['\\', 'b']
     else if c == '\x0c' then ['\\', 'f']
     else if c.toNat < 32 then
       ['\\', 'u', '0', '0', hexDigit (c.toNat / 16), hexDigit (c.toNat % 16)]
     else [c]) ++ escapeJson rest

mutual

/-- stringifyV models JSON.stringify on a JValue: object fields are emitted
in insertion order (this order sensitivity is load-bearing below). -/
def stringifyV : JValue → JStr
  | .null => jstr "null"
  | .bool true => jstr "true"
  | .bool false => jstr "false"
  | .num n => intChars n
  | .str s => '"' :: (escapeJson s ++ ['"'])
  | .arr es => '[' :: (stringifyArr es ++ [']'])
  | .obj fs => '\x7b' :: (stringifyObj fs ++ ['\x7d'])

/-- Comma-joined serializations of array elements. -/
def stringifyArr : List JValue → JStr
  | [] => []
  | [v] => stringifyV v
  | v :: rest => stringifyV v ++ ',' :: stringifyArr rest

/-- Comma-joined key:value serializations of object fields. -/
def stringifyObj : List (JStr × JValue) → JStr
  | [] => []
  | [(k, v)] => '"' :: (escapeJson k ++ '"' :: ':' :: stringifyV v)
  | (k, v) :: rest =>
    '"' :: (escapeJson k ++ '"' :: ':' :: stringifyV v) ++ ',' :: stringifyObj rest

end

/-- JS object-property assignment obj[k] = v: an existing key keeps its
position and gets the new value, a new key is appended. -/
def setField : List (JStr × JValue) → JStr → JValue → List (JStr × JValue)
  | [], k, v => [(k, v)]
  | (k', v') :: rest, k, v =>
    if k' == k then (k', v) :: rest else (k', v') :: setField rest k v

/-- First-match property lookup obj[k] (none models undefined). -/
def lookupField : List (JStr × JValue) → JStr → Option JValue
  | [], _ => none
  | (k', v') :: rest, k => if k' == k then some v' else lookupField rest k

/-- Property lookup on an arbitrary value; non-objects yield undefined. -/
def getFieldJ : JValue → JStr → Option JValue
  | .obj fs, k => lookupField fs k
  | _, _ => none

/-- JSON whitespace accepted between tokens by JSON.parse. -/
def isJsonWs (c : Char) : Bool := c == ' ' || c == '\t' || c == '\n' || c == '\r'

/-- Drop leading JSON whitespace. -/
def skipWs (s : JStr) : JStr := s.dropWhile isJsonWs

/-- Decode one JSON string escape character (the model omits the uXXXX
form, which none of this program's inputs rely on). -/
def escPairs : List (Char × Char) :=
  [('"', '"'), ('\\', '\\'), ('/', '/'), ('n', '\n'), ('t', '\t'), ('r', '\r'),
   ('b', '\x08'), ('f', '\x0c')]

/-- Look the escape character up in the table. -/
def escChar (c : Char) : Option Char :=
  (escPairs.find? (fun p => p.1 == c)).map (fun p => p.2)

/-- Parse a JSON string body after the opening quote; returns the decoded
content and the input remaining after the closing quote. -/
def parseStrBody : JStr → Option (JStr × JStr)
  | [] => none
  | '"' :: rest => some ([], rest)
  | '\\' :: e :: rest =>
    match escChar e with
    | some c => (parseStrBody rest).map (fun p => (c :: p.1, p.2))
    | none => none
  | ['\\'] => none
  | c :: rest =>
    if c.toNat < 32 then none
    else (parseStrBody rest).map (fun p => (c :: p.1, p.2))

/-- Digits to a natural number. -/
def digitsToNat (ds : JStr) : Nat := ds.foldl (fun a c => a * 10 + (c.toNat - 48)) 0

/-- Parse a JSON number token (integer fragment: JSON.parse is modelled
only on numbers without fraction or exponent, which is all this program's
own record values use). -/
def parseNumTok (s : JStr) : Option (Int × JStr) :=
  let (neg, s') := match s with
    | '-' :: rest => (true, rest)
    | _ => (false, s)
  let ds := s'.takeWhile isDigitCh
  if ds.isEmpty then none
  else if 1 < ds.length && ds.headD ' ' == '0' then none
  else
    let rest := s'.drop ds.length
    match rest with
    | '.' :: _ => none
    | 'e' :: _ => none
    | 'E' :: _ => none
    | _ =>
      let n : Int := (digitsToNat ds : Nat)
      some (if neg then -n else n, rest)

mutual

/-- Fuel-driven JSON value parser: consumes one value from the front of
the input, mirroring JSON.parse's grammar on the modelled fragment. -/
def parseValue : Nat → JStr → Option (JValue × JStr)
  | 0, _ => none
  | fuel + 1, s0 =>
    let s := skipWs s0
    match s with
    | '\x7b' :: rest =>
      let r := skipWs rest
      (match r with
       | '\x7d' :: r' => some (.obj [], r')
       | _ => (parseObjFields fuel [] r).map (fun p => (.obj p.1, p.2)))
    | '[' :: rest =>
      let r := skipWs rest
      (match r with
       | ']' :: r' => some (.arr [], r')
       | _ => (parseArrElems fuel r).map (fun p => (.arr p.1, p.2)))
    | '"' :: rest => (parseStrBody rest).map (fun p => (.str p.1, p.2))
    | _ =>
      if startsWithL (jstr "true") s then some (.bool true, s.drop 4)
      else if startsWithL (jstr "false") s then some (.bool false, s.drop 5)
      else if startsWithL (jstr "null") s then some (.null, s.drop 4)
      else (parseNumTok s).map (fun p => (.num p.1, p.2))

/-- Parse the elements of a non-empty JSON array up to the closing bracket. -/
def parseArrElems : Nat → JStr → Option (List JValue × JStr)
  | 0, _ => none
  | fuel + 1, s =>
    match parseValue fuel s with
    | none => none
    | some (v, r) =>
      match skipWs r with
      | ',' :: r' => (parseArrElems fuel r').map (fun p => (v :: p.1, p.2))
      | ']' :: r' => some ([v], r')
      | _ => none

/-- Parse the fields of a non-empty JSON object up to the closing brace;
duplicate keys overwrite in place as JSON.parse does. -/
def parseObjFields : Nat → List (JStr × JValue) → JStr → Option (List (JStr × JValue) × JStr)
  | 0, _, _ => none
  | fuel + 1, acc, s =>
    match s with
    | '"' :: rest =>
      match parseStrBody rest with
      | none => none
      | some (k, r) =>
        match skipWs r with
        | ':' :: r' =>
          match parseValue fuel r' with
          | none => none
          | some (v, r2) =>
            let acc' := setField acc k v
            (match skipWs r2 with
             | ',' :: r3 => parseObjFields fuel acc' (skipWs r3)
             | '\x7d' :: r3 => some (acc', r3)
             | _ => none)
        | _ => none
    | _ => none

end

/-- jsonParse models JSON.parse on the modelled fragment: one value,
optionally surrounded by whitespace; trailing garbage is an error. -/
def jsonParse (s : JStr) : Option JValue :=
  match parseValue (s.length + 1) s with
  | some (v, rest) => if (skipWs rest).isEmpty then some v else none
  | none => none

/-- One pass of the cleanup regex replace(/,\s*C/g, C): each comma that is
followed by whitespace and then the closing character C collapses to C,
scanning left to right without rescanning emitted output. -/
def replCommaClose (close : Char) : Nat → JStr → JStr
  | 0, s => s
  | fuel + 1, s =>
    match s with
    | [] => []
    | ',' :: rest =>
      let r := rest.dropWhile isJsWs
      (match r with
       | c :: r' =>
         if c == close then close :: replCommaClose close fuel r'
         else ',' :: replCommaClose close fuel rest
       | [] => ',' :: replCommaClose close fuel rest)
    | c :: rest => c :: replCommaClose close fuel rest

/-- Collapse every whitespace run to a single space (replace(/\s+/g, ' ')). -/
def collapseWs (prevWs : Bool) : JStr → JStr
  | [] => []
  | c :: rest =>
    if isJsWs c then
      if prevWs then collapseWs true rest else ' ' :: collapseWs true rest
    else c :: collapseWs false rest

/-- tryParseJson's cleanup passes, in the code's order: trailing commas
before a closing brace, trailing commas before a closing bracket,
newlines to spaces, whitespace runs to one space. -/
def cleanJson (s : JStr) : JStr :=
  let a := replCommaClose '\x7d' s.length s
  let b := replCommaClose ']' a.length a
  let c := b.map (fun ch => if ch == '\n' then ' ' else ch)
  collapseWs false c

/-- tryParseJson: JSON.parse the input, and on failure parse a cleaned
copy; null (modelled as none) when both attempts fail. -/
def tryParseJson (s : JStr) : Option JValue :=
  match jsonParse s with
  | some v => some v
  | none => jsonParse (cleanJson s)

/-- Everything of the input from position p through the last occurrence of
c (used for the greedy tail of the bracket-span regexes). -/
def takeThroughLast (c : Char) (l : JStr) : JStr :=
  (l.reverse.dropWhile (fun x => !(x == c))).reverse

/-- firstSpan o c s models s.match over the regex o[sS]*c (for the pairs
bracket/close-bracket and brace/close-brace): the leftmost possible start
is the first o that has some c after it, and the greedy body extends the
match to the last c of the whole input. -/
def firstSpan (o c : Char) : JStr → Option JStr
  | [] => none
  | x :: rest =>
    if x == o && rest.contains c then some (x :: takeThroughLast c rest)
    else firstSpan o c rest

/-- JS truthiness on the modelled values. -/
def jsTruthy : JValue → Bool
  | .null => false
  | .bool b => b
  | .num n => !(n == 0)
  | .str s => !s.isEmpty
  | .arr _ => true
  | .obj _ => true

/-- Recovery method 1: greedy bracket span parsed as a JSON array. -/
def method1 (resp : JStr) : Option (List JValue) :=
  match firstSpan '[' ']' resp with
  | some s =>
    (match tryParseJson s with
     | some (.arr a) => some a
     | _ => none)
  | none => none

/-- Recovery method 2: greedy brace span; a lone truthy non-array value is
wrapped in a one-element array, an array is returned as is. -/
def method2 (resp : JStr) : Option (List JValue) :=
  match firstSpan '\x7b' '\x7d' resp with
  | some s =>
    (match tryParseJson s with
     | some (.arr a) => some a
     | some v => if jsTruthy v then some [v] else none
     | none => none)
  | none => none

/-- The lead-in labels scanned by recovery method 3, in the code's order. -/
def leadInLabels : List JStr :=
  [jstr "JSON Array:", jstr "Result:", jstr "Data:", jstr "Extracted Data:"]

/-- Recovery method 3: after each label found in the response, retry the
greedy bracket-span array extraction on the trimmed remainder. -/
def method3 : List JStr → JStr → Option (List JValue)
  | [], _ => none
  | lab :: labs, resp =>
    match afterFirst resp lab with
    | some after =>
      (match firstSpan '[' ']' (trimL after) with
       | some s =>
         (match tryParseJson s with
          | some (.arr a) => some a
          | _ => method3 labs resp)
       | none => method3 labs resp)
    | none => method3 labs resp

/-- parseFromResponse: the three recovery methods tried in order, first
success wins (interactive-scraper.service.ts lines 241-276). -/
def parseFromResponse (resp : JStr) : Option (List JValue) :=
  match method1 resp with
  | some a => some a
  | none =>
    match method2 resp with
    | some a => some a
    | none => method3 leadInLabels resp

/-- One step of the aggregation: push an item unless its JSON.stringify
serialization was already seen (the seen Set is modelled by a list used
only through membership). -/
def pushUnique (seen : List JStr) (acc : List JValue) (item : JValue) : List JStr × List JValue :=
  let key := stringifyV item
  if seen.contains key then (seen, acc) else (key :: seen, acc ++ [item])

/-- Fold a chunk's parsed items through pushUnique. -/
def pushItems (st : List JStr × List JValue) (items : List JValue) : List JStr × List JValue :=
  items.foldl (fun p it => pushUnique p.1 p.2 it) st

/-- The cross-chunk aggregation of extractWithAI, isolated over the
per-chunk record lists: chunks with no items are skipped, all other items
flow through the shared seen-set (lines 288-297). -/
def aggregateChunkItems (chunkLists : List (List JValue)) : List JValue :=
  (chunkLists.foldl (fun st items => if items.isEmpty then st else pushItems st items)
    ([], [])).2

/-- Reference first-occurrence deduplication keyed by stringifyV, used to
state what the aggregation computes. -/
def dedupByKey (seen : List JStr) : List JValue → List JValue
  | [] => []
  | x :: xs =>
    if seen.contains (stringifyV x) then dedupByKey seen xs
    else x :: dedupByKey (stringifyV x :: seen) xs

/-- Canonical (key-sorted) ordering on JS strings used by the spec's
notion of canonical JSON. -/
def lexLe : JStr → JStr → Bool
  | [], _ => true
  | _ :: _, [] => false
  | a :: as, b :: bs => if a == b then lexLe as bs else decide (a.toNat < b.toNat)

/-- Insert a field into a key-sorted field list. -/
def insertByKey (p : JStr × JValue) : List (JStr × JValue) → List (JStr × JValue)
  | [] => [p]
  | q :: rest => if lexLe p.1 q.1 then p :: q :: rest else q :: insertByKey p rest

/-- Key-sort a field list. -/
def sortByKey (l : List (JStr × JValue)) : List (JStr × JValue) := l.foldr insertByKey []

mutual

/-- Recursively key-sort every object in a value (the spec's canonical
form of a record). -/
def canonicalize : JValue → JValue
  | .null => .null
  | .bool b => .bool b
  | .num n => .num n
  | .str s => .str s
  | .arr es => .arr (canonicalizeArr es)
  | .obj fs => .obj (sortByKey (canonicalizeObj fs))

/-- Canonicalize each array element. -/
def canonicalizeArr : List JValue → List JValue
  | [] => []
  | v :: rest => canonicalize v :: canonicalizeArr rest

/-- Canonicalize each field value. -/
def canonicalizeObj : List (JStr × JValue) → List (JStr × JValue)
  | [] => []
  | (k, v) :: rest => (k, canonicalize v) :: canonicalizeObj rest

end

/-- The spec's canonical-JSON serialization: the key-sorted form of the
value, serialized. -/
def canonicalJson (v : JValue) : JStr := stringifyV (canonicalize v)

/-- Fuel-driven fixed-size chunking loop. -/
def jsChunksAux : Nat → Nat → JStr → List JStr
  | 0, _, _ => []
  | _ + 1, _, [] => []
  | fuel + 1, n, s => s.take n :: jsChunksAux fuel n (s.drop n)

/-- The chunking step of extractWithAI (lines 230-236): contiguous
character windows content.substring(i, min(i+n, len)) for i = 0, n, 2n, … -/
def jsChunks (n : Nat) (s : JStr) : List JStr := jsChunksAux s.length n s

/-- One content section as produced by the HTML parser (only the fields
this program's extraction code reads). -/
structure CSection where
  stype : JStr
  content : JStr

/-- The parsed-content object attached to a scraping result; sections is
an Option because the duck-typed code guards on its presence. -/
structure ScrapedContent where
  ctitle : JStr
  text : JStr
  links : List JStr
  images : List JStr
  headings : List JStr
  metadata : List (JStr × JStr)
  sections : Option (List CSection)

/-- The dynamic scrapedData.content slot: absent, a raw string, or a
parsed-content object. -/
inductive ContentField where
  | absent : ContentField
  | str (s : JStr) : ContentField
  | obj (c : ScrapedContent) : ContentField

/-- A scraping result as consumed by the extractors. -/
structure ScrapedData where
  url : JStr
  title : JStr
  content : ContentField

/-- The parsed user prompt supplied by the prompt-parsing collaborator. -/
structure ParsedPrompt where
  target : JStr
  fields : List JStr

/-- JSON rendering of a section for the stringify fallback branch. -/
def sectionToJValue (s : CSection) : JValue :=
  .obj [(jstr "type", .str s.stype), (jstr "content", .str s.content)]

/-- JSON rendering of the parsed-content object (field order follows the
HTML parser's construction; an absent sections property is omitted). -/
def contentToJValue (c : ScrapedContent) : JValue :=
  .obj ([(jstr "title", .str c.ctitle), (jstr "text", .str c.text),
         (jstr "links", .arr (c.links.map (fun l => .str l))),
         (jstr "images", .arr (c.images.map (fun l => .str l))),
         (jstr "headings", .arr (c.headings.map (fun l => .str l))),
         (jstr "metadata", .obj (c.metadata.map (fun p => (p.1, JValue.str p.2))))] ++
        (match c.sections with
         | some ss => [(jstr "sections", .arr (ss.map sectionToJValue))]
         | none => []))

/-- Content selection of extractWithAI (lines 171-180): content?.text when
truthy, the content itself when it is a string, else JSON.stringify of the
content object; empty when content is absent. -/
def extractContent : ContentField → JStr
  | .absent => []
  | .str s => s
  | .obj c => if c.text.isEmpty then stringifyV (contentToJValue c) else c.text

/-- The first challenge signature. -/
def sigJust : JStr := jstr "Just a moment"

/-- The second challenge signature. -/
def sigCheck : JStr := jstr "Checking your browser"

/-- A string contains a challenge-page signature. -/
def containsSig (s : JStr) : Bool := containsSub s sigJust || containsSub s sigCheck

/-- The per-chunk completion prompt of extractWithAI (lines 204-228). -/
def buildPrompt (originalPrompt : JStr) (p : ParsedPrompt) (chunk : JStr) : JStr :=
  jstr "\nYou are a web scraping assistant. Extract the requested information from the web content.\n\nUser Request: \"" ++
  originalPrompt ++
  jstr "\"\nTarget: " ++ p.target ++
  jstr "\nFields to extract: " ++ joinWith (jstr ", ") p.fields ++
  jstr "\n\nWeb Content:\n" ++ chunk ++
  jstr "\n\nCRITICAL INSTRUCTIONS:\n- Return ONLY a valid JSON array, no additional text, explanations, or markdown\n- Do not include any text before or after the JSON array\n- Ensure all JSON is properly formatted with correct quotes and commas\n- Extract ONLY REAL data from the web content - NEVER use example, placeholder, or generic data\n- DO NOT generate fake product names like \"Product Name\" or \"Another Product\"\n- DO NOT generate fake prices like \"$29.99\" or \"€25.50\" unless they actually appear in the content\n- If the user is asking for products and prices, look for actual product names and their corresponding prices from the content\n- Extract prices in their original format (e.g., $29.99, €25.50, £19.99) ONLY if they exist in the content\n- For product names, use the actual names found in the content\n- If no real products/prices are found in the content, return an empty array []\n- If the content is insufficient (like \"Just a moment...\" or very short text), return an empty array []\n - Return as many distinct items as present (up to 50). Do not omit items.\n\nReturn only the JSON array with real data extracted from the content above:"

/-- The inference collaborator: call number and prompt to either a thrown
error or a completion text. -/
abbrev Oracle := Nat → JStr → Except JStr JStr

/-- The sequential per-chunk loop of extractWithAI (lines 278-298): each
chunk's completion is parsed and its items deduplicated into the shared
aggregate; a raising collaborator call escapes the loop (the try wraps the
whole loop); after the loop, an empty aggregate is turned into a thrown
error.  The second component counts the collaborator calls made. -/
def chunkLoop (oracle : Oracle) (mk : JStr → JStr) :
    List JStr → Nat → List JStr → List JValue → Except JStr (List JValue) × Nat
  | [], calls, _, acc =>
    (if acc.isEmpty then .error (jstr "AI response does not contain valid JSON array")
     else .ok acc, calls)
  | chunk :: rest, calls, seen, acc =>
    match oracle calls (mk chunk) with
    | .error e => (.error e, calls + 1)
    | .ok resp =>
      match parseFromResponse resp with
      | some items =>
        if items.isEmpty then chunkLoop oracle mk rest (calls + 1) seen acc
        else
          let st := pushItems (seen, acc) items
          chunkLoop oracle mk rest (calls + 1) st.1 st.2
      | none => chunkLoop oracle mk rest (calls + 1) seen acc

/-- The body of extractWithAI after content selection, parameterized over
the environment-selected minimum content length: the sufficiency gate, the
fixed 3500-character chunking, and the chunk loop. -/
def aiCore (minLen : Nat) (sd : ScrapedData) (p : ParsedPrompt) (originalPrompt : JStr)
    (oracle : Oracle) : Except JStr (List JValue) × Nat :=
  let content := extractContent sd.content
  if content.length < minLen || containsSig sd.title || containsSig content then (.ok [], 0)
  else chunkLoop oracle (buildPrompt originalPrompt p) (jsChunks 3500 content) 0 [] []

/-- The strict service's minimum content length (interactive-scraper
.service.ts line 188): 0 under NODE_ENV=test, else 100. -/
def minContentLengthStrict (isTest : Bool) : Nat := if isTest then 0 else 100

/-- The tool-variant service's minimum content length (scraper.tool.ts
line 1020): 50 under NODE_ENV=test, else 100. -/
def minContentLengthTool (isTest : Bool) : Nat := if isTest then 50 else 100

/-- extractWithAI of the strict, AI-only service
(interactive-scraper.service.ts lines 166-308): result of the extraction
(or the propagated/rethrown error) plus the number of collaborator calls. -/
def extractWithAI (isTest : Bool) (sd : ScrapedData) (p : ParsedPrompt) (originalPrompt : JStr)
    (oracle : Oracle) : Except JStr (List JValue) × Nat :=
  aiCore (minContentLengthStrict isTest) sd p originalPrompt oracle

/-- Digit or comma (the regex class [\d,] of the price patterns). -/
def isDigitComma (c : Char) : Bool := isDigitCh c || c == ','

/-- Leftmost match of the currency-symbol price pattern sym[\d,]+\.?\d*
(the four symbol patterns of extractBasicData): at the first symbol
followed by at least one digit or comma, greedily take digits/commas, an
optional dot, and trailing digits.  For this pattern the greedy scan
coincides with the regex engine's backtracking search. -/
def findSymPrice (sym : Char) : JStr → Option JStr
  | [] => none
  | c :: rest =>
    if c == sym then
      let ds := rest.takeWhile isDigitComma
      if ds.isEmpty then findSymPrice sym rest
      else
        let r := rest.drop ds.length
        match r with
        | '.' :: r2 => some (c :: (ds ++ '.' :: r2.takeWhile isDigitCh))
        | _ => some (c :: ds)
    else findSymPrice sym rest

/-- The currency words of the fifth price pattern. -/
def priceWords : List JStr := [jstr "USD", jstr "EUR", jstr "GBP", jstr "JPY"]

/-- Case-insensitive prefix test for the /i flag. -/
def startsWithCI : JStr → JStr → Bool
  | [], _ => true
  | _ :: _, [] => false
  | p :: ps, c :: cs => p.toLower == c.toLower && startsWithCI ps cs

/-- Leftmost match of the word pattern [\d,]+\.?\d*\s*(USD|EUR|GBP|JPY)
with the /i flag: greedy number part, optional dot and digits, optional
whitespace, then a currency word; for this pattern too the greedy scan
agrees with the engine's backtracking (giving back digits can never make
the letter-only currency word match earlier). -/
def findWordPrice : JStr → Option JStr
  | [] => none
  | c :: rest =>
    if isDigitComma c then
      let ds := (c :: rest).takeWhile isDigitComma
      let r0 := (c :: rest).drop ds.length
      let numPart : JStr × JStr :=
        match r0 with
        | '.' :: r2 => (ds ++ '.' :: r2.takeWhile isDigitCh, r2.drop (r2.takeWhile isDigitCh).length)
        | _ => (ds, r0)
      let ws := numPart.2.takeWhile isJsWs
      let r3 := numPart.2.drop ws.length
      match priceWords.find? (fun w => startsWithCI w r3) with
      | some w => some (numPart.1 ++ ws ++ r3.take w.length)
      | none => findWordPrice rest
    else findWordPrice rest

/-- The first match over the ordered price-pattern list of
extractBasicData (lines 676-692): dollar, euro, pound, yen, then the
currency-word pattern; empty when none matches (the code's '' default). -/
def sectionPrice (text : JStr) : JStr :=
  match findSymPrice '$' text with
  | some m => m
  | none =>
    match findSymPrice '€' text with
    | some m => m
    | none =>
      match findSymPrice '£' text with
      | some m => m
      | none =>
        match findSymPrice '¥' text with
        | some m => m
        | none =>
          match findWordPrice text with
          | some m => m
          | none => []

/-- Per-field assignment of the per-section branch of extractBasicData
(lines 658-700), on the item's field list. -/
def applyFieldSection (sd : ScrapedData) (sec : CSection)
    (item : List (JStr × JValue)) (field : JStr) : List (JStr × JValue) :=
  if field == jstr "title" then
    setField item (jstr "title")
      (.str (if sec.content.isEmpty then
               (if sd.title.isEmpty then jstr "No title" else sd.title)
             else sec.content))
  else if field == jstr "content" || field == jstr "description" then
    setField item (jstr "description")
      (.str (if sec.content.isEmpty then jstr "No description" else sec.content))
  else if field == jstr "link" then
    setField item (jstr "link") (.str sd.url)
  else if field == jstr "price" then
    let pr := sectionPrice sec.content
    setField item (jstr "price") (.str (if pr.isEmpty then jstr "Price not found" else pr))
  else
    setField item field (if sec.content.isEmpty then .null else .str sec.content)

/-- One per-section record of extractBasicData: index, url and timestamp
first, then the requested fields in order. -/
def mkSectionItem (sd : ScrapedData) (p : ParsedPrompt) (now : JStr)
    (idx : Nat) (sec : CSection) : JValue :=
  .obj (p.fields.foldl (applyFieldSection sd sec)
    [(jstr "index", .num idx), (jstr "url", .str sd.url), (jstr "scraped_at", .str now)])

/-- The parsed-content object of a scraping result, when the content slot
holds one. -/
def contentOf (sd : ScrapedData) : Option ScrapedContent :=
  match sd.content with
  | .obj c => some c
  | _ => none

/-- Per-field assignment of the no-sections fallback branch of
extractBasicData (lines 714-756). -/
def applyFieldFallback (sd : ScrapedData)
    (item : List (JStr × JValue)) (field : JStr) : List (JStr × JValue) :=
  if field == jstr "title" then
    setField item (jstr "title") (.str (if sd.title.isEmpty then jstr "No title" else sd.title))
  else if field == jstr "content" || field == jstr "description" then
    setField item (jstr "description")
      (.str (match contentOf sd with
             | some c => if c.text.isEmpty then jstr "No content" else c.text
             | none => jstr "No content"))
  else if field == jstr "link" then
    setField item (jstr "link") (.str (if sd.url.isEmpty then jstr "Unknown URL" else sd.url))
  else if field == jstr "price" then
    let pr := match contentOf sd with
      | some c => sectionPrice c.text
      | none => []
    setField item (jstr "price") (.str (if pr.isEmpty then jstr "Price not found" else pr))
  else if field == jstr "image" then
    setField item (jstr "image")
      (match contentOf sd with
       | some c =>
         (match c.images.head? with
          | some i => if i.isEmpty then .null else .str i
          | none => .null)
       | none => .null)
  else
    setField item field .null

/-- The comprehensive fallback record of extractBasicData (lines
708-778): url and timestamp, the requested fields, then the first three
links and headings when the content object carries any. -/
def fallbackItem (sd : ScrapedData) (p : ParsedPrompt) (now : JStr) : JValue :=
  let base := p.fields.foldl (applyFieldFallback sd)
    [(jstr "url", .str (if sd.url.isEmpty then jstr "Unknown URL" else sd.url)),
     (jstr "scraped_at", .str now)]
  let withLinks :=
    match contentOf sd with
    | some c =>
      if c.links.isEmpty then base
      else setField base (jstr "links") (.str (joinWith (jstr "; ") (c.links.take 3)))
    | none => base
  let withHeadings :=
    match contentOf sd with
    | some c =>
      if c.headings.isEmpty then withLinks
      else setField withLinks (jstr "headings") (.str (joinWith (jstr "; ") (c.headings.take 3)))
    | none => withLinks
  .obj withHeadings

/-- extractBasicData (scraper.tool.ts lines 641-782): one record per
section when the content object carries sections, else a single fallback
record; new Date().toISOString() is the now parameter. -/
def extractBasicData (sd : ScrapedData) (p : ParsedPrompt) (now : JStr) : List JValue :=
  let data : List JValue :=
    match sd.content with
    | .obj c =>
      (match c.sections with
       | some ss => ss.enum.map (fun e => mkSectionItem sd p now e.1 e.2)
       | none => [])
    | _ => []
  if data.isEmpty then [fallbackItem sd p now] else data

mutual

/-- JS String(value) coercion on the modelled values: arrays join their
members with commas (null members becoming empty), plain objects render
as object-Object per JS toString. -/
def jsToString : JValue → JStr
  | .null => jstr "null"
  | .bool true => jstr "true"
  | .bool false => jstr "false"
  | .num n => intChars n
  | .str s => s
  | .arr es => jsToStringArr es
  | .obj _ => jstr "[object Object]"

/-- Array.toString member rendering. -/
def jsToStringArr : List JValue → JStr
  | [] => []
  | [v] => (match v with | .null => [] | _ => jsToString v)
  | v :: rest => (match v with | .null => [] | _ => jsToString v) ++ ',' :: jsToStringArr rest

end

/-- Double each quote for CSV quoting. -/
def dupQuotes (s : JStr) : JStr :=
  s.foldr (fun c acc => if c == '"' then '"' :: '"' :: acc else c :: acc) []

/-- escapeCsvValue (csv-export.service.ts lines 62-79) on a possibly
undefined value: null/undefined become empty; values containing a comma,
newline or quote are quoted with doubled quotes. -/
def escapeCsvValue : Option JValue → JStr
  | none => []
  | some .null => []
  | some v =>
    let s := jsToString v
    if s.contains ',' || s.contains '\n' || s.contains '"' then
      '"' :: (dupQuotes s ++ ['"'])
    else s

/-- The JS guard typeof item === 'object' && item !== null (arrays are
objects in JS). -/
def isJsObjectNonNull : JValue → Bool
  | .obj _ => true
  | .arr _ => true
  | _ => false

/-- Object.keys on the modelled values: field names for plain objects,
index strings for arrays, nothing otherwise. -/
def jsKeys : JValue → List JStr
  | .obj fs => fs.map (fun f => f.1)
  | .arr l => (List.range l.length).map natChars
  | _ => []

/-- item[header] indexing for CSV row generation. -/
def jsIndex : JValue → JStr → Option JValue
  | .obj fs, k => lookupField fs k
  | .arr l, k =>
    (match (List.range l.length).find? (fun i => natChars i == k) with
     | some i => l.get? i
     | none => none)
  | _, _ => none

/-- Insertion-ordered Set.add of key strings. -/
def addKeys (ks : List JStr) (new : List JStr) : List JStr :=
  new.foldl (fun acc k => if acc.contains k then acc else acc ++ [k]) ks

/-- str.repeat(count) with JS semantics: a negative count throws a
RangeError (its message in Node mentions an invalid count value). -/
def strRepeatJS (s : JStr) (count : Int) : Except Unit JStr :=
  if count < 0 then .error () else .ok (joinWith [] (List.replicate count.toNat s))

/-- The failure modes of the CSV exporter that the model distinguishes:
the explicit no-data throw, and the RangeError escaping row generation. -/
inductive CsvFailure where
  | noData : CsvFailure
  | rangeError : CsvFailure
deriving DecidableEq

/-- The header keys of generateCsvContent: the insertion-ordered union of
the keys of the object-typed entries. -/
def csvHeaders (data : List JValue) : List JStr :=
  data.foldl (fun ks item => if isJsObjectNonNull item then addKeys ks (jsKeys item) else ks) []

/-- One CSV row: an object row maps the headers through escaped lookups;
a non-object row is its escaped value padded with headers.length - 1
commas, which throws a RangeError when there are no headers. -/
def csvRow (headers : List JStr) (item : JValue) : Except Unit JStr :=
  if isJsObjectNonNull item then
    .ok (joinWith (jstr ",") (headers.map (fun h => escapeCsvValue (jsIndex item h))))
  else
    (strRepeatJS (jstr ",") ((headers.length : Int) - 1)).map
      (fun commas => escapeCsvValue (some item) ++ commas)

/-- generateCsvContent (csv-export.service.ts lines 46-99): the header
row followed by one row per entry, joined by newlines; a RangeError in
any row escapes the whole generation. -/
def generateCsvContent (data : List JValue) : Except Unit JStr :=
  if data.isEmpty then .ok []
  else
    (data.mapM (csvRow (csvHeaders data))).map
      (fun rows => joinWith (jstr "\n") (joinWith (jstr ",") (csvHeaders data) :: rows))

/-- Suffix test for the .csv filename check. -/
def endsWithL (suf s : JStr) : Bool := startsWithL suf.reverse s.reverse

/-- exportToCsv (csv-export.service.ts lines 9-44) without the file-system
side effects: empty data throws, a RangeError from row generation is
rethrown wrapped, otherwise the joined output path is returned (nowIso is
the timestamp used in the generated filename). -/
def exportToCsv (data : List JValue) (filename outputDir nowIso : JStr) :
    Except CsvFailure JStr :=
  if data.length == 0 then .error .noData
  else
    match generateCsvContent data with
    | .error () => .error .rangeError
    | .ok _ =>
      let ts := nowIso.map (fun c => if c == ':' || c == '.' then '-' else c)
      let finalName := if endsWithL (jstr ".csv") filename then filename
                       else filename ++ '_' :: (ts ++ jstr ".csv")
      .ok (outputDir ++ '/' :: finalName)

/-- ASCII letter or digit (the slug regex [^a-zA-Z0-9] replaces the rest). -/
def isAlphaNumAscii (c : Char) : Bool :=
  ('a' ≤ c && c ≤ 'z') || ('A' ≤ c && c ≤ 'Z') || ('0' ≤ c && c ≤ '9')

/-- Slug of the first n characters used for generated filenames. -/
def slugify (n : Nat) (s : JStr) : JStr :=
  (s.map (fun c => if isAlphaNumAscii c then c else '_')).take n

/-- A prompt-scraping request. -/
structure PromptRequest where
  prompt : JStr
  url : JStr
  outputFormat : Option JStr
  outputPath : Option JStr

/-- The data slot of a prompt-scraping result: the strict service returns
the raw scraped data on success, the tool variant returns the records. -/
inductive RData where
  | scraped (sd : ScrapedData) : RData
  | records (rs : List JValue) : RData

/-- A prompt-scraping result. -/
structure PromptResult where
  success : Bool
  rdata : RData
  outputFile : Option JStr
  message : JStr
  errorMsg : Option JStr

/-- The failure result the strict service builds both for the explicit
no-data return (lines 61-69) and in its catch-all (lines 103-113). -/
def noDataFailure : PromptResult :=
  { success := false, rdata := .records [], outputFile := none,
    message := jstr "Scraping failed - no data extracted",
    errorMsg := some (jstr "Scraping failed - no data extracted") }

/-- processPromptRequest of the strict, AI-only service
(interactive-scraper.service.ts lines 23-114).  Collaborator calls are
inputs: the prompt parser's output, the scrape result (possibly thrown),
the availability probe (possibly thrown), the inference oracle and the
timestamp.  Every thrown error lands in the catch-all, which returns the
same no-data failure the empty-extraction branch returns. -/
def processPromptRequest (isTest : Bool) (req : PromptRequest) (parsed : ParsedPrompt)
    (scrapeRes : Except JStr ScrapedData) (avail : Except JStr Bool)
    (oracle : Oracle) (nowIso : JStr) : PromptResult :=
  match scrapeRes with
  | .error _ => noDataFailure
  | .ok sd =>
    let availB := match avail with
      | .ok b => b
      | .error _ => false
    if !availB && !isTest then noDataFailure
    else
      match (extractWithAI isTest sd parsed req.prompt oracle).1 with
      | .error _ => noDataFailure
      | .ok structuredData =>
        if structuredData.isEmpty then noDataFailure
        else
          let csvStep : Except Unit (Option JStr) :=
            if req.outputFormat == some (jstr "csv") || req.outputFormat == none then
              let outDir := (req.outputPath).getD (jstr "./output")
              if isTest && outDir.head? == some '/' then .error ()
              else
                match exportToCsv structuredData
                  (jstr "scraped_" ++ slugify 50 req.url ++ '_' :: slugify 30 req.prompt)
                  outDir nowIso with
                | .error _ => .error ()
                | .ok f => .ok (some f)
            else .ok none
          match csvStep with
          | .error () => noDataFailure
          | .ok outputFile =>
            { success := true, rdata := .scraped sd, outputFile := outputFile,
              message := jstr "Successfully scraped and exported " ++
                natChars structuredData.length ++ jstr " items to " ++
                (outputFile.getD (jstr "undefined")),
              errorMsg := none }

/-- extractWithAI of the tool-variant service (scraper.tool.ts lines
992-1143): the same gate and chunk loop, but the catch falls back to
extractBasicData instead of rethrowing. -/
def extractWithAITool (isTest : Bool) (sd : ScrapedData) (p : ParsedPrompt)
    (originalPrompt : JStr) (oracle : Oracle) (now : JStr) : List JValue :=
  match (aiCore (minContentLengthTool isTest) sd p originalPrompt oracle).1 with
  | .ok l => l
  | .error _ => extractBasicData sd p now

/-- extractWithXRay of the tool variant (lines 1145-1170): the schema
collaborator's value, arrays as is and lone values wrapped; its catch
falls back to extractBasicData. -/
def extractWithXRayTool (sd : ScrapedData) (p : ParsedPrompt)
    (xray : Except JStr JValue) (now : JStr) : List JValue :=
  match xray with
  | .ok (.arr l) => l
  | .ok v => [v]
  | .error _ => extractBasicData sd p now

/-- extractDataBasedOnPrompt of the tool variant (lines 918-962): the AI
path when the availability probe answers true (falling back to
extractBasicData when it yields nothing), the X-Ray path otherwise; a
thrown availability probe lands in the catch, which also returns
extractBasicData. -/
def extractDataBasedOnPromptTool (isTest : Bool) (sd : ScrapedData) (p : ParsedPrompt)
    (originalPrompt : JStr) (avail : Except JStr Bool) (oracle : Oracle)
    (xray : Except JStr JValue) (now : JStr) : List JValue :=
  match avail with
  | .error _ => extractBasicData sd p now
  | .ok true =>
    let aiData := extractWithAITool isTest sd p originalPrompt oracle now
    if aiData.isEmpty then extractBasicData sd p now else aiData
  | .ok false => extractWithXRayTool sd p xray now

/-- The supplement-and-deduplicate merge of the tool variant's
processPromptRequest (lines 859-877): model output first, then the
heuristic records, first stringify-key occurrence wins, capped at 50. -/
def mergeSupplement (structured supplemental : List JValue) : List JValue :=
  (((structured ++ supplemental).foldl (fun st it => pushUnique st.1 st.2 it) ([], [])).2).take 50

/-- processPromptRequest of the tool variant (scraper.tool.ts lines
822-916): extraction, the under-10 merge with basic extraction, CSV
export, and a catch-all that reports the thrown message. -/
def processPromptRequestTool (isTest : Bool) (req : PromptRequest) (parsed : ParsedPrompt)
    (scrapeRes : Except JStr ScrapedData) (avail : Except JStr Bool)
    (oracle : Oracle) (xray : Except JStr JValue) (nowIso : JStr) : PromptResult :=
  match scrapeRes with
  | .error e =>
    { success := false, rdata := .records [], outputFile := none,
      message := jstr "Scraping failed - no data extracted", errorMsg := some e }
  | .ok sd =>
    let sData := extractDataBasedOnPromptTool isTest sd parsed req.prompt avail oracle xray nowIso
    let merged :=
      if sData.length < 10 then mergeSupplement sData (extractBasicData sd parsed nowIso)
      else sData
    let csvStep : Except JStr (Option JStr) :=
      if req.outputFormat == some (jstr "csv") || req.outputFormat == none then
        match exportToCsv merged
          (jstr "scraped_" ++ slugify 50 req.url ++ '_' :: slugify 30 req.prompt)
          ((req.outputPath).getD (jstr "./output")) nowIso with
        | .error .noData => .error (jstr "CSV export failed: No data to export")
        | .error .rangeError => .error (jstr "CSV export failed: Invalid count value")
        | .ok f => .ok (some f)
      else .ok none
    match csvStep with
    | .error e =>
      { success := false, rdata := .records [], outputFile := none,
        message := jstr "Scraping failed - no data extracted", errorMsg := some e }
    | .ok outputFile =>
      { success := true, rdata := .records merged, outputFile := outputFile,
        message := jstr "Successfully scraped and exported " ++
          natChars merged.length ++ jstr " items to " ++
          (outputFile.getD (jstr "undefined")),
        errorMsg := none }

/-- The infinite-scroll loop of handleInfiniteScroll (mcp-client
.service.ts lines 163-195), abstracted over the page: clientHeight is
fixed, f i is the document scrollHeight observed at the canScrollMore
check of iteration i, and hPrev is the scrollHeight at the moment the
iteration's scrollTo runs (so the reached scrollTop is hPrev - client,
clamped at zero by the Nat subtraction, exactly the browser clamp).  The
result counts the scroll iterations performed. -/
def scrollLoop (client : Nat) (f : Nat → Nat) : Nat → Nat → Nat → Nat
  | 0, i, _ => i
  | rem + 1, i, hPrev =>
    if (hPrev - client) + client + 10 < f i then scrollLoop client f rem (i + 1) (f i)
    else i + 1

/-- handleInfiniteScroll: up to maxScrolls iterations starting from the
initial document height. -/
def handleInfiniteScroll (maxScrolls client initialHeight : Nat) (f : Nat → Nat) : Nat :=
  scrollLoop client f maxScrolls 0 initialHeight

/-- The document height at the moment iteration i scrolls: the initial
height for the first iteration, the previous check's observation after. -/
def heightBefore (initialHeight : Nat) (f : Nat → Nat) : Nat → Nat
  | 0 => initialHeight
  | i + 1 => f i

/-- The loop's continue condition at iteration i, in terms of the
observed heights. -/
def continuesAt (client initialHeight : Nat) (f : Nat → Nat) (i : Nat) : Prop :=
  (heightBefore initialHeight f i - client) + client + 10 < f i

instance (client initialHeight : Nat) (f : Nat → Nat) (i : Nat) :
    Decidable (continuesAt client initialHeight f i) := by
  unfold continuesAt; infer_instance

/-- A blocked-page scraping result used by concrete instantiations. -/
def wChallengeData : ScrapedData :=
  ⟨jstr "u", jstr "Just a moment...", .str (jstr "some page body text")⟩

/-- A collaborator that always raises, for gate instantiations. -/
def wFailOracle : Oracle := fun _ _ => .error (jstr "unavailable")

/-- A minimal parsed prompt. -/
def wEmptyPrompt : ParsedPrompt := ⟨jstr "items", []⟩

/-- A record with fields inserted as a then b. -/
def dupRecA : JValue := .obj [(jstr "a", .str (jstr "1")), (jstr "b", .str (jstr "2"))]

/-- The same key-to-value map with fields inserted as b then a. -/
def dupRecB : JValue := .obj [(jstr "b", .str (jstr "2")), (jstr "a", .str (jstr "1"))]

/-- A collaborator that raises on its first call and afterwards answers
with a valid one-record array. -/
def c4Oracle : Oracle := fun i _ => if i == 0 then .error (jstr "timeout") else .ok (jstr "[2]")

/-- A collaborator that answers its first call with a valid one-record
array and raises on every later call. -/
def c4bOracle : Oracle := fun i _ => if i == 0 then .ok (jstr "[1]") else .error (jstr "timeout")

/-- A content object whose text is a challenge interstitial. -/
def blockedContent : ScrapedContent :=
  ⟨[], jstr "Checking your browser - please wait while we verify your request", [], [], [], [],
   none⟩

/-- A scraping result for a blocked page. -/
def blockedData : ScrapedData := ⟨jstr "u", jstr "Example Domain", .obj blockedContent⟩

/-- A request with default (CSV) output format. -/
def c3Req : PromptRequest := ⟨jstr "get products", jstr "http://e.x", none, none⟩

/-- A request with json output format (no CSV step). -/
def c3ReqJson : PromptRequest := ⟨jstr "get products", jstr "http://e.x", some (jstr "json"), none⟩

/-- A collaborator that always answers with an empty array. -/
def c3Oracle : Oracle := fun _ _ => .ok (jstr "[]")

/-- A section whose text carries a dollar price. -/
def priceDoc : ScrapedContent :=
  ⟨[], [], [], [], [], [], some [⟨jstr "paragraph", jstr "Widget A - $12.50"⟩]⟩

/-- A section whose text matches no price pattern. -/
def noPriceDoc : ScrapedContent :=
  ⟨[], [], [], [], [], [], some [⟨jstr "paragraph", jstr "Widget A has no price"⟩]⟩

/-- The field spec title, price. -/
def priceFields : ParsedPrompt := ⟨jstr "products", [jstr "title", jstr "price"]⟩

/-- A two-section content object. -/
def w9Content : ScrapedContent :=
  ⟨[], [], [], [], [], [], some [⟨jstr "p", jstr "S1"⟩, ⟨jstr "p", jstr "S2"⟩]⟩

/-- A two-section scraping result. -/
def w9Data : ScrapedData := ⟨jstr "u", jstr "T", .obj w9Content⟩

/-- A sectionless content object with four links. -/
def w9FallContent : ScrapedContent :=
  ⟨[], jstr "txt", [jstr "l1", jstr "l2", jstr "l3", jstr "l4"], [], [], [], none⟩

/-- A sectionless scraping result with links. -/
def w9Fall : ScrapedData := ⟨jstr "u", jstr "T", .obj w9FallContent⟩

/-- Strictly growing height sequence whose growth stays at 5 pixels. -/
def c5Heights : Nat → Nat := fun i => 105 + 5 * i

/-- Height sequence growing by 20 pixels per iteration. -/
def c5GrowHeights : Nat → Nat := fun i => 20 * (i + 1)

end AIScraper

namespace AIScraper

lemma jsChunksAux_join (n : Nat) (hn : 1 ≤ n) :
    ∀ fuel s, s.length ≤ fuel → (jsChunksAux fuel n s).flatten = s := by
  intro fuel
  induction fuel with
  | zero =>
    intro s hs
    have : s = [] := List.eq_nil_of_length_eq_zero (Nat.le_zero.mp hs)
    subst this
    simp [jsChunksAux]
  | succ fuel ih =>
    intro s hs
    match s with
    | [] => simp [jsChunksAux]
    | c :: cs =>
      have hdrop : ((c :: cs).drop n).length ≤ fuel := by
        rw [List.length_drop]
        have := hs
        simp only [List.length_cons] at this ⊢
        omega
      simp only [jsChunksAux, List.flatten_cons]
      rw [ih _ hdrop, List.take_append_drop]

lemma jsChunksAux_nil_input : ∀ fuel n, jsChunksAux fuel n ([] : JStr) = [] := by
  intro fuel n
  cases fuel <;> simp [jsChunksAux]

lemma jsChunksAux_mem_len (n : Nat) (hn : 1 ≤ n) :
    ∀ fuel s, s.length ≤ fuel → ∀ c ∈ jsChunksAux fuel n s, 1 ≤ c.length ∧ c.length ≤ n := by
  intro fuel
  induction fuel with
  | zero => intro s _ c hc; simp [jsChunksAux] at hc
  | succ fuel ih =>
    intro s hs c hc
    match s with
    | [] => simp [jsChunksAux] at hc
    | a :: as =>
      simp only [jsChunksAux, List.mem_cons] at hc
      rcases hc with hc | hc
      · subst hc
        constructor
        · simp only [List.length_take, List.length_cons]
          omega
        · simp only [List.length_take]
          omega
      · have hdrop : ((a :: as).drop n).length ≤ fuel := by
          rw [List.length_drop]
          simp only [List.length_cons] at hs ⊢
          omega
        exact ih _ hdrop c hc

lemma jsChunksAux_dropLast (n : Nat) (hn : 1 ≤ n) :
    ∀ fuel s, s.length ≤ fuel → ∀ c ∈ (jsChunksAux fuel n s).dropLast, c.length = n := by
  intro fuel
  induction fuel with
  | zero => intro s _ c hc; simp [jsChunksAux] at hc
  | succ fuel ih =>
    intro s hs c hc
    match s with
    | [] => simp [jsChunksAux] at hc
    | a :: as =>
      simp only [jsChunksAux] at hc
      rcases hrest : jsChunksAux fuel n ((a :: as).drop n) with _ | ⟨r, rs⟩
      · rw [hrest] at hc
        simp at hc
      · rw [hrest] at hc
        rw [List.dropLast_cons₂] at hc
        have hdropne : (a :: as).drop n ≠ [] := by
          intro hnil
          rw [hnil, jsChunksAux_nil_input] at hrest
          exact List.noConfusion hrest
        have hlen : n < (a :: as).length := by
          by_contra hle
          exact hdropne (List.drop_eq_nil_of_le (Nat.le_of_not_lt hle))
        rcases List.mem_cons.mp hc with hc | hc
        · subst hc
          simp only [List.length_take]
          omega
        · have hdrop : ((a :: as).drop n).length ≤ fuel := by
            rw [List.length_drop]
            simp only [List.length_cons] at hs ⊢
            omega
          have := ih _ hdrop c
          rw [hrest] at this
          exact this hc

/-- C7. Chunk partition: for every text and chunk size n of at least one,
the chunking loop of extractWithAI yields contiguous windows whose
concatenation is exactly the input, every chunk except possibly the last
has length exactly n, and the last has length between 1 and n. -/
theorem chunk_partition (n : Nat) (hn : 1 ≤ n) (s : JStr) :
    (jsChunks n s).flatten = s
  ∧ (∀ c ∈ (jsChunks n s).dropLast, c.length = n)
  ∧ ∀ (h : jsChunks n s ≠ []),
      1 ≤ ((jsChunks n s).getLast h).length ∧ ((jsChunks n s).getLast h).length ≤ n := by
  refine ⟨?_, ?_, ?_⟩
  · exact jsChunksAux_join n hn s.length s (Nat.le_refl _)
  · exact jsChunksAux_dropLast n hn s.length s (Nat.le_refl _)
  · intro h
    exact jsChunksAux_mem_len n hn s.length s (Nat.le_refl _) _ (List.getLast_mem h)

/-- Witness for C7 at n = 4 on a ten-character text. -/
theorem chunk_partition_witness :
    1 ≤ 4
  ∧ ((jsChunks 4 (jstr "abcdefghij")).flatten = jstr "abcdefghij"
  ∧ (∀ c ∈ (jsChunks 4 (jstr "abcdefghij")).dropLast, c.length = 4)
  ∧ ∀ (h : jsChunks 4 (jstr "abcdefghij") ≠ []),
      1 ≤ ((jsChunks 4 (jstr "abcdefghij")).getLast h).length
      ∧ ((jsChunks 4 (jstr "abcdefghij")).getLast h).length ≤ 4) :=
  ⟨by decide, chunk_partition 4 (by decide) (jstr "abcdefghij")⟩

/-- C1. Sufficiency gating of the strict service's extractWithAI: when the
title or the selected content carries a challenge signature, or the
content length is below the environment's minimum, the result is the empty
record list and zero collaborator calls are made. -/
theorem sufficiency_gate_strict (isTest : Bool) (sd : ScrapedData) (p : ParsedPrompt)
    (originalPrompt : JStr) (oracle : Oracle)
    (h : containsSig sd.title = true
       ∨ containsSig (extractContent sd.content) = true
       ∨ (extractContent sd.content).length < minContentLengthStrict isTest) :
    extractWithAI isTest sd p originalPrompt oracle = (.ok [], 0) := by
  unfold extractWithAI aiCore
  rcases h with h | h | h
  · simp [h]
  · simp [h]
  · simp [h]

/-- Witness for C1 on a concrete challenge-titled page. -/
theorem sufficiency_gate_strict_witness :
    containsSig (wChallengeData.title) = true
  ∧ extractWithAI false wChallengeData wEmptyPrompt [] wFailOracle = (.ok [], 0) :=
  ⟨by decide,
   sufficiency_gate_strict false wChallengeData wEmptyPrompt [] wFailOracle (Or.inl (by decide))⟩

lemma scrollLoop_continue_all (client H : Nat) (f : Nat → Nat) :
    ∀ rem i, (∀ k, i ≤ k → k < i + rem → continuesAt client H f k) →
      scrollLoop client f rem i (heightBefore H f i) = i + rem := by
  intro rem
  induction rem with
  | zero => intro i _; simp [scrollLoop]
  | succ rem ih =>
    intro i hall
    have hcont : (heightBefore H f i - client) + client + 10 < f i :=
      hall i (Nat.le_refl i) (by omega)
    unfold scrollLoop
    rw [if_pos hcont]
    have : f i = heightBefore H f (i + 1) := rfl
    rw [this, ih (i + 1) (fun k hk1 hk2 => hall k (by omega) (by omega))]
    omega

lemma scrollLoop_stop_at (client H : Nat) (f : Nat → Nat) :
    ∀ rem i j, i ≤ j → j < i + rem →
      (∀ k, i ≤ k → k < j → continuesAt client H f k) →
      ¬ continuesAt client H f j →
      scrollLoop client f rem i (heightBefore H f i) = j + 1 := by
  intro rem
  induction rem with
  | zero => intro i j h1 h2 _ _; omega
  | succ rem ih =>
    intro i j h1 h2 hbefore hstop
    rcases Nat.eq_or_lt_of_le h1 with heq | hlt
    · subst heq
      have hstop' : ¬ ((heightBefore H f i - client) + client + 10 < f i) := hstop
      unfold scrollLoop
      rw [if_neg hstop']
    · have hcont : (heightBefore H f i - client) + client + 10 < f i :=
        hbefore i (Nat.le_refl i) hlt
      unfold scrollLoop
      rw [if_pos hcont]
      have : f i = heightBefore H f (i + 1) := rfl
      rw [this]
      exact ih (i + 1) j hlt (by omega) (fun k hk1 hk2 => hbefore k (by omega) hk2) hstop

/-- C5 (amended). Scroll termination with the code's 10-pixel epsilon: the
loop runs all maxScrolls iterations when every check sees the height grow
by more than 10 over the height scrolled to, it stops right after the
first iteration whose check does not, and an unchanged height always
fails the check (no grace iterations). -/
theorem scroll_termination_epsilon (maxScrolls client H : Nat) (f : Nat → Nat)
    (hmax : 1 ≤ maxScrolls) :
    ((∀ i, i < maxScrolls → continuesAt client H f i) →
       handleInfiniteScroll maxScrolls client H f = maxScrolls)
  ∧ (∀ j, j < maxScrolls → (∀ i, i < j → continuesAt client H f i) →
       ¬ continuesAt client H f j →
       handleInfiniteScroll maxScrolls client H f = j + 1)
  ∧ (∀ j, f j = heightBefore H f j → ¬ continuesAt client H f j) := by
  refine ⟨?_, ?_, ?_⟩
  · intro hall
    have := scrollLoop_continue_all client H f maxScrolls 0
      (fun k _ hk => hall k (by omega))
    simpa [handleInfiniteScroll] using this
  · intro j hj hbefore hstop
    have := scrollLoop_stop_at client H f maxScrolls 0 j (Nat.zero_le j) (by omega)
      (fun k _ hk => hbefore k hk) hstop
    simpa [handleInfiniteScroll] using this
  · intro j hfix
    unfold continuesAt
    rw [hfix]
    omega

/-- Witness for C5's amended theorem on a steadily growing page. -/
theorem scroll_termination_epsilon_witness :
    1 ≤ 2 ∧ handleInfiniteScroll 2 0 0 c5GrowHeights = 2 :=
  ⟨by decide,
   (scroll_termination_epsilon 2 0 0 c5GrowHeights (by decide)).1 (by decide)⟩

/-- C5 counterexample: with heights 100, 105, 110 every consecutive pair
differs, so the claim's equality-based statement demands both scroll
iterations, but the loop stops after the first because the 5-pixel growth
is within the code's 10-pixel epsilon. -/
theorem scroll_equality_counterexample :
    handleInfiniteScroll 2 0 100 c5Heights = 1
  ∧ c5Heights 0 ≠ 100
  ∧ c5Heights 1 ≠ c5Heights 0
  ∧ (1 : Nat) ≠ 2 :=
  ⟨rfl, by decide, by decide, by decide⟩

/-- C6 (amended). The bare-array strategy is tried first and wins whenever
it succeeds: if the greedy bracket span of the response parses (directly
or after cleanup) as a JSON array, parseFromResponse returns exactly that
array, before the object or lead-in-label strategies are consulted. -/
theorem bare_array_strategy_first (resp s : JStr) (a : List JValue)
    (h1 : firstSpan '[' ']' resp = some s)
    (h2 : tryParseJson s = some (.arr a)) :
    parseFromResponse resp = some a := by
  simp [parseFromResponse, method1, h1, h2]

/-- Witness for C6's amended theorem on a clean array response. -/
theorem bare_array_strategy_first_witness :
    firstSpan '[' ']' (jstr "[1, 2]") = some (jstr "[1, 2]")
  ∧ tryParseJson (jstr "[1, 2]") = some (.arr [.num 1, .num 2])
  ∧ parseFromResponse (jstr "[1, 2]") = some [.num 1, .num 2] :=
  ⟨rfl, rfl, bare_array_strategy_first (jstr "[1, 2]") (jstr "[1, 2]") [.num 1, .num 2] rfl rfl⟩

/-- C6 counterexample: the response contains the valid bare array [1] and
a Result:-labelled array [2], but the greedy bracket regex spans from the
first bracket to the last one, that span fails to parse even after
cleanup, and the lead-in-label strategy's array is returned instead of
the bare array's. -/
theorem recovery_order_counterexample :
    containsSub (jstr "[1] Result: [2]") (jstr "[1]") = true
  ∧ tryParseJson (jstr "[1]") = some (.arr [.num 1])
  ∧ firstSpan '[' ']' (jstr "[1] Result: [2]") = some (jstr "[1] Result: [2]")
  ∧ tryParseJson (jstr "[1] Result: [2]") = none
  ∧ parseFromResponse (jstr "[1] Result: [2]") = some [.num 2] :=
  ⟨rfl, rfl, rfl, rfl, rfl⟩

lemma pushItems_eq (items : List JValue) : ∀ (seen : List JStr) (acc : List JValue),
    pushItems (seen, acc) items =
      (((dedupByKey seen items).map stringifyV).reverse ++ seen, acc ++ dedupByKey seen items) := by
  induction items with
  | nil => intro seen acc; simp [pushItems, dedupByKey]
  | cons x xs ih =>
    intro seen acc
    show pushItems (pushUnique seen acc x) xs = _
    simp only [pushUnique]
    rcases hmem : seen.contains (stringifyV x) with _ | _
    · have hx : stringifyV x ∉ seen := by simpa using hmem
      simp only [hmem, Bool.false_eq_true, ite_false]
      rw [ih (stringifyV x :: seen) (acc ++ [x])]
      simp [dedupByKey, hmem, hx, List.append_assoc]
    · have hx : stringifyV x ∈ seen := by simpa using hmem
      simp only [hmem, ite_true]
      rw [ih seen acc]
      simp [dedupByKey, hmem, hx]

lemma dedupByKey_append (l1 : List JValue) : ∀ (l2 : List JValue) (seen : List JStr),
    dedupByKey seen (l1 ++ l2)
      = dedupByKey seen l1
        ++ dedupByKey (((dedupByKey seen l1).map stringifyV).reverse ++ seen) l2 := by
  induction l1 with
  | nil => intro l2 seen; simp [dedupByKey]
  | cons x xs ih =>
    intro l2 seen
    rcases hmem : seen.contains (stringifyV x) with _ | _
    · simp only [List.cons_append, dedupByKey, hmem, Bool.false_eq_true, ite_false,
        List.append_eq]
      rw [ih l2 (stringifyV x :: seen)]
      simp [List.append_assoc]
    · simp only [List.cons_append, dedupByKey, hmem, ite_true, List.append_eq]
      exact ih l2 seen

lemma aggregate_fold_eq (chunkLists : List (List JValue)) :
    ∀ (seen : List JStr) (acc : List JValue),
      (chunkLists.foldl (fun st items => if items.isEmpty then st else pushItems st items)
        (seen, acc)).2 = acc ++ dedupByKey seen chunkLists.flatten := by
  induction chunkLists with
  | nil => intro seen acc; simp [dedupByKey]
  | cons items rest ih =>
    intro seen acc
    rcases hempty : items.isEmpty with _ | _
    · simp only [List.foldl_cons, hempty, Bool.false_eq_true, ite_false]
      rw [pushItems_eq items seen acc, ih]
      rw [List.flatten_cons, dedupByKey_append items rest.flatten seen]
      simp [List.append_assoc]
    · have : items = [] := List.isEmpty_iff.mp hempty
      subst this
      simp only [List.foldl_cons, List.isEmpty_nil, ite_true]
      rw [ih]
      simp [List.flatten_cons, dedupByKey]

lemma dedupByKey_not_in_seen : ∀ (l : List JValue) (seen : List JStr) (x : JValue),
    x ∈ dedupByKey seen l → seen.contains (stringifyV x) = false := by
  intro l
  induction l with
  | nil => intro seen x hx; simp [dedupByKey] at hx
  | cons a as ih =>
    intro seen x hx
    rcases hmem : seen.contains (stringifyV a) with _ | _
    · rw [dedupByKey, hmem] at hx
      simp only [Bool.false_eq_true, ite_false] at hx
      rcases List.mem_cons.mp hx with hx | hx
      · subst hx; exact hmem
      · have := ih (stringifyV a :: seen) x hx
        simp only [List.contains_cons, Bool.or_eq_false_iff] at this
        exact this.2
    · rw [dedupByKey, hmem] at hx
      simp only [ite_true] at hx
      exact ih seen x hx

lemma dedupByKey_pairwise : ∀ (l : List JValue) (seen : List JStr),
    (dedupByKey seen l).Pairwise (fun a b => stringifyV a ≠ stringifyV b) := by
  intro l
  induction l with
  | nil => intro seen; simp [dedupByKey]
  | cons a as ih =>
    intro seen
    rcases hmem : seen.contains (stringifyV a) with _ | _
    · rw [dedupByKey, hmem]
      simp only [Bool.false_eq_true, ite_false]
      refine List.Pairwise.cons ?_ (ih (stringifyV a :: seen))
      intro b hb hab
      have := dedupByKey_not_in_seen as (stringifyV a :: seen) b hb
      simp only [List.contains_cons, Bool.or_eq_false_iff] at this
      have hne := this.1
      rw [hab] at hne
      simp at hne
    · rw [dedupByKey, hmem]
      simp only [ite_true]
      exact ih seen

/-- C2 (amended). Aggregation deduplicates by byte-equality of the
insertion-order JSON.stringify serialization: the cross-chunk aggregate
equals the first-occurrence deduplication of the concatenated chunk
outputs under that key, and no two kept records share a serialization.
(Two records denoting the same map in different insertion orders do NOT
collapse; see the counterexample.) -/
theorem aggregation_dedup_stringify (chunkLists : List (List JValue)) :
    aggregateChunkItems chunkLists = dedupByKey [] chunkLists.flatten
  ∧ (dedupByKey [] chunkLists.flatten).Pairwise (fun a b => stringifyV a ≠ stringifyV b) := by
  constructor
  · unfold aggregateChunkItems
    rw [aggregate_fold_eq chunkLists [] []]
    simp
  · exact dedupByKey_pairwise chunkLists.flatten []

/-- C2 counterexample: two records denoting the same key-to-value map with
different insertion orders have byte-equal key-sorted (canonical)
serializations, yet the aggregation keeps both, because its key is the
order-sensitive JSON.stringify text. -/
theorem aggregation_canonical_counterexample :
    canonicalJson dupRecA = canonicalJson dupRecB
  ∧ stringifyV dupRecA ≠ stringifyV dupRecB
  ∧ aggregateChunkItems [[dupRecA], [dupRecB]] = [dupRecA, dupRecB]
  ∧ (aggregateChunkItems [[dupRecA], [dupRecB]]).length = 2 :=
  ⟨rfl, by decide, rfl, rfl⟩

lemma chunkLoop_abort (oracle : Oracle) (mk : JStr → JStr) :
    ∀ (chunks : List JStr) (calls : Nat) (seen : List JStr) (acc : List JValue)
      (j : Nat) (hj : j < chunks.length) (e : JStr),
      (∀ i (hi : i < j), ∃ r, oracle (calls + i) (mk (chunks.get ⟨i, hi.trans hj⟩)) = .ok r) →
      oracle (calls + j) (mk (chunks.get ⟨j, hj⟩)) = .error e →
      chunkLoop oracle mk chunks calls seen acc = (.error e, calls + j + 1) := by
  intro chunks
  induction chunks with
  | nil => intro calls seen acc j hj; simp at hj
  | cons c rest ih =>
    intro calls seen acc j hj e hok hfail
    cases j with
    | zero =>
      simp only [List.get] at hfail
      rw [Nat.add_zero] at hfail
      unfold chunkLoop
      rw [hfail]
    | succ j =>
      obtain ⟨r, hr⟩ := hok 0 (Nat.succ_pos j)
      simp only [List.get] at hr
      rw [Nat.add_zero] at hr
      unfold chunkLoop
      rw [hr]
      show (match parseFromResponse r with
            | some items =>
              if items.isEmpty = true then chunkLoop oracle mk rest (calls + 1) seen acc
              else
                chunkLoop oracle mk rest (calls + 1) (pushItems (seen, acc) items).1
                  (pushItems (seen, acc) items).2
            | none => chunkLoop oracle mk rest (calls + 1) seen acc)
          = (.error e, calls + (j + 1) + 1)
      have hstep : ∀ seen' acc',
          chunkLoop oracle mk rest (calls + 1) seen' acc' = (.error e, calls + (j + 1) + 1) := by
        intro seen' acc'
        have hj' : j < rest.length := Nat.lt_of_succ_lt_succ hj
        have hfail' : oracle (calls + 1 + j) (mk (rest.get ⟨j, hj'⟩)) = .error e := by
          have : calls + 1 + j = calls + (j + 1) := by omega
          rw [this]
          exact hfail
        have hok' : ∀ i (hi : i < j),
            ∃ r', oracle (calls + 1 + i) (mk (rest.get ⟨i, hi.trans hj'⟩)) = .ok r' := by
          intro i hi
          obtain ⟨r', hr'⟩ := hok (i + 1) (Nat.succ_lt_succ hi)
          refine ⟨r', ?_⟩
          have : calls + 1 + i = calls + (i + 1) := by omega
          rw [this]
          exact hr'
        have := ih (calls + 1) seen' acc' j hj' e hok' hfail'
        rw [this]
        congr 1
        omega
      cases hp : parseFromResponse r with
      | none => exact hstep seen acc
      | some items =>
        rcases hi : items.isEmpty with _ | _
        · simp only [hi, Bool.false_eq_true, ite_false]
          exact hstep _ _
        · simp only [hi, ite_true]
          exact hstep seen acc

/-- C4 (amended). Per-chunk failure is NOT isolated: the try block wraps
the whole chunk loop, so the first collaborator call that raises aborts
the extraction at that chunk — exactly j+1 calls are made when chunk j is
the first to fail, the remaining chunks are never processed, and the
error propagates regardless of what other chunks would have returned. -/
theorem chunk_failure_aborts_loop (oracle : Oracle) (mk : JStr → JStr)
    (chunks : List JStr) (seen : List JStr) (acc : List JValue)
    (j : Nat) (hj : j < chunks.length) (e : JStr)
    (hok : ∀ i (hi : i < j), ∃ r, oracle i (mk (chunks.get ⟨i, hi.trans hj⟩)) = .ok r)
    (hfail : oracle j (mk (chunks.get ⟨j, hj⟩)) = .error e) :
    chunkLoop oracle mk chunks 0 seen acc = (.error e, j + 1) := by
  have := chunkLoop_abort oracle mk chunks 0 seen acc j hj e
    (fun i hi => by simpa using hok i hi) (by simpa using hfail)
  simpa using this

/-- Witness for C4's amended theorem: two chunks, the first call raising. -/
theorem chunk_failure_aborts_loop_witness :
    chunkLoop c4Oracle (fun c => c) [jstr "a", jstr "b"] 0 [] [] = (.error (jstr "timeout"), 1) :=
  chunk_failure_aborts_loop c4Oracle (fun c => c) [jstr "a", jstr "b"] [] [] 0 (by decide)
    (jstr "timeout") (fun i hi => absurd hi (Nat.not_lt_zero i)) rfl

/-- C4 counterexample: with two chunks, the first collaborator call parses
to a record and the second raises, yet the loop surfaces an overall error
(the first chunk's records are discarded) although not every chunk failed
— and conversely a first-chunk failure stops processing after one call
even though the second chunk's call would succeed. -/
theorem chunk_isolation_counterexample :
    chunkLoop c4bOracle (fun c => c) [jstr "a", jstr "b"] 0 [] []
      = (.error (jstr "timeout"), 2)
  ∧ c4bOracle 0 (jstr "a") = .ok (jstr "[1]")
  ∧ parseFromResponse (jstr "[1]") = some [.num 1]
  ∧ chunkLoop c4Oracle (fun c => c) [jstr "a", jstr "b"] 0 [] []
      = (.error (jstr "timeout"), 1)
  ∧ c4Oracle 1 (jstr "b") = .ok (jstr "[2]")
  ∧ parseFromResponse (jstr "[2]") = some [.num 2] :=
  ⟨rfl, rfl, rfl, rfl, rfl, rfl⟩

/-- C8. Heuristic price extraction: the section text Widget A - $12.50
with field spec title, price yields one record whose title is the section
text and whose price is the literal matched substring $12.50; a section
matching no price pattern gets the literal Price not found sentinel. -/
theorem heuristic_price_literal (url title now : JStr) :
    extractBasicData ⟨url, title, .obj priceDoc⟩ priceFields now
      = [.obj [(jstr "index", .num 0), (jstr "url", .str url), (jstr "scraped_at", .str now),
               (jstr "title", .str (jstr "Widget A - $12.50")),
               (jstr "price", .str (jstr "$12.50"))]]
  ∧ sectionPrice (jstr "Widget A - $12.50") = jstr "$12.50"
  ∧ extractBasicData ⟨url, title, .obj noPriceDoc⟩ priceFields now
      = [.obj [(jstr "index", .num 0), (jstr "url", .str url), (jstr "scraped_at", .str now),
               (jstr "title", .str (jstr "Widget A has no price")),
               (jstr "price", .str (jstr "Price not found"))]] :=
  ⟨rfl, rfl, rfl⟩

lemma lookupField_setField_self (fs : List (JStr × JValue)) (k : JStr) (v : JValue) :
    lookupField (setField fs k v) k = some v := by
  induction fs with
  | nil => simp [setField, lookupField]
  | cons p rest ih =>
    rcases p with ⟨k', v'⟩
    rcases h : k' == k with _ | _
    · simp [setField, lookupField, h, ih]
    · simp [setField, lookupField, h]

lemma lookupField_setField_ne (fs : List (JStr × JValue)) (k' k : JStr) (v : JValue)
    (h : (k' == k) = false) :
    lookupField (setField fs k' v) k = lookupField fs k := by
  induction fs with
  | nil => simp [setField, lookupField, h]
  | cons p rest ih =>
    rcases p with ⟨k0, v0⟩
    rcases h0 : k0 == k' with _ | _
    · simp [setField, lookupField, h0, ih]
    · have hk0 : k0 = k' := by simpa using h0
      subst hk0
      simp [setField, lookupField, h0, h]

/-- C9. The heuristic extractor is total and never empty: with a content
object carrying a non-empty section list it returns one record per
section; in every other case it returns exactly the single fallback
record, which samples the first three links under the links key whenever
the content object carries any. -/
theorem heuristic_extractor_total (sd : ScrapedData) (p : ParsedPrompt) (now : JStr) :
    1 ≤ (extractBasicData sd p now).length
  ∧ (∀ c ss, sd.content = .obj c → c.sections = some ss → ss ≠ [] →
      (extractBasicData sd p now).length = ss.length)
  ∧ (∀ c, sd.content = .obj c → (c.sections = none ∨ c.sections = some []) →
      extractBasicData sd p now = [fallbackItem sd p now]
      ∧ (¬ c.links.isEmpty = true →
          getFieldJ (fallbackItem sd p now) (jstr "links")
            = some (.str (joinWith (jstr "; ") (c.links.take 3)))))
  ∧ ((sd.content = .absent ∨ (∃ s, sd.content = .str s)) →
      extractBasicData sd p now = [fallbackItem sd p now]) := by
  refine ⟨?_, ?_, ?_, ?_⟩
  · rcases sd with ⟨url, title, cf⟩
    cases cf with
    | absent => simp [extractBasicData]
    | str s => simp [extractBasicData]
    | obj c =>
      rcases hs : c.sections with _ | ss
      · simp [extractBasicData, hs]
      · rcases ss with _ | ⟨a, as⟩
        · simp [extractBasicData, hs]
        · simp [extractBasicData, hs, List.enum_cons, List.enumFrom_length]
  · intro c ss hcf hsec hne
    rcases ss with _ | ⟨a, as⟩
    · exact absurd rfl hne
    · simp [extractBasicData, hcf, hsec, List.enum_cons, List.enumFrom_length]
  · intro c hcf hsec
    constructor
    · rcases hsec with h | h
      · simp [extractBasicData, hcf, h]
      · simp [extractBasicData, hcf, h]
    · intro hlinks
      have hco : contentOf sd = some c := by simp [contentOf, hcf]
      have hle : c.links.isEmpty = false := by
        rcases hb : c.links.isEmpty with _ | _
        · rfl
        · exact absurd hb hlinks
      simp only [fallbackItem, getFieldJ, hco, hle, Bool.false_eq_true, ite_false]
      rcases hh : c.headings.isEmpty with _ | _
      · simp only [hh, Bool.false_eq_true, ite_false]
        rw [lookupField_setField_ne _ _ _ _ (by decide)]
        exact lookupField_setField_self _ _ _
      · simp only [hh, ite_true]
        exact lookupField_setField_self _ _ _
  · intro h
    rcases h with h | ⟨s, h⟩
    · simp [extractBasicData, h]
    · simp [extractBasicData, h]

/-- Witness for C9: two sections give two records; the sectionless result
is the single fallback record and samples the first three of four links. -/
theorem heuristic_extractor_total_witness :
    (extractBasicData w9Data wEmptyPrompt (jstr "N")).length = 2
  ∧ getFieldJ (fallbackItem w9Fall wEmptyPrompt (jstr "N")) (jstr "links")
      = some (.str (jstr "l1; l2; l3")) :=
  ⟨(heuristic_extractor_total w9Data wEmptyPrompt (jstr "N")).2.1 w9Content
      [⟨jstr "p", jstr "S1"⟩, ⟨jstr "p", jstr "S2"⟩] rfl rfl (List.cons_ne_nil _ _),
   ((heuristic_extractor_total w9Fall wEmptyPrompt (jstr "N")).2.2.1 w9FallContent rfl
      (Or.inl rfl)).2 (by decide)⟩

lemma csvHeaders_nil_of_nonobj : ∀ (data : List JValue) (init : List JStr),
    (∀ v ∈ data, isJsObjectNonNull v = false) →
    data.foldl (fun ks item => if isJsObjectNonNull item then addKeys ks (jsKeys item) else ks)
      init = init := by
  intro data
  induction data with
  | nil => intro init _; rfl
  | cons x xs ih =>
    intro init h
    have hx := h x (List.mem_cons_self x xs)
    simp only [List.foldl_cons, hx, Bool.false_eq_true, ite_false]
    exact ih init (fun v hv => h v (List.mem_cons_of_mem x hv))

lemma addKeys_length_le : ∀ (new ks : List JStr), ks.length ≤ (addKeys ks new).length := by
  intro new
  induction new with
  | nil => intro ks; exact Nat.le_refl _
  | cons k rest ih =>
    intro ks
    show ks.length ≤ (addKeys (if ks.contains k then ks else ks ++ [k]) rest).length
    rcases h : ks.contains k with _ | _
    · simp only [h, Bool.false_eq_true, ite_false]
      calc ks.length ≤ (ks ++ [k]).length := by simp
        _ ≤ _ := ih (ks ++ [k])
    · simp only [h, ite_true]
      exact ih ks

lemma foldKeys_ne_nil_pres : ∀ (data : List JValue) (init : List JStr), init ≠ [] →
    data.foldl (fun ks item => if isJsObjectNonNull item then addKeys ks (jsKeys item) else ks)
      init ≠ [] := by
  intro data
  induction data with
  | nil => intro init h; exact h
  | cons x xs ih =>
    intro init h
    simp only [List.foldl_cons]
    rcases hx : isJsObjectNonNull x with _ | _
    · simp only [hx, Bool.false_eq_true, ite_false]
      exact ih init h
    · simp only [hx, ite_true]
      apply ih
      have hmono := addKeys_length_le (jsKeys x) init
      have hlen : 1 ≤ init.length := List.length_pos.mpr h
      intro hnil
      rw [hnil] at hmono
      simp only [List.length_nil, Nat.le_zero] at hmono
      omega

lemma addKeys_ne_nil_of_new : ∀ (new ks : List JStr), new ≠ [] → addKeys ks new ≠ [] := by
  intro new ks hne hnil
  rcases new with _ | ⟨k, rest⟩
  · exact hne rfl
  · have h1 : 1 ≤ (if ks.contains k then ks else ks ++ [k]).length := by
      rcases hc : ks.contains k with _ | _
      · simp
      · have hkmem : k ∈ ks := by simpa using hc
        have hksne : ks ≠ [] := by rintro rfl; simp at hkmem
        simpa using List.length_pos.mpr hksne
    have h2 := addKeys_length_le rest (if ks.contains k then ks else ks ++ [k])
    have hstep : addKeys ks (k :: rest)
        = addKeys (if ks.contains k then ks else ks ++ [k]) rest := rfl
    rw [hstep] at hnil
    rw [hnil] at h2
    simp only [List.length_nil, Nat.le_zero] at h2
    omega

lemma csvHeaders_ne_nil_of_mem : ∀ (data : List JValue) (init : List JStr) (v : JValue),
    v ∈ data → jsKeys v ≠ [] →
    data.foldl (fun ks item => if isJsObjectNonNull item then addKeys ks (jsKeys item) else ks)
      init ≠ [] := by
  intro data
  induction data with
  | nil => intro init v hv; intro _; simp at hv
  | cons x xs ih =>
    intro init v hv hk
    rcases List.mem_cons.mp hv with rfl | hv'
    · have hobjx : isJsObjectNonNull v = true := by
        cases v <;> simp [jsKeys, isJsObjectNonNull] at hk ⊢
      simp only [List.foldl_cons, hobjx, ite_true]
      exact foldKeys_ne_nil_pres xs _ (addKeys_ne_nil_of_new (jsKeys v) init hk)
    · simp only [List.foldl_cons]
      rcases hx : isJsObjectNonNull x with _ | _
      · simp only [hx, Bool.false_eq_true, ite_false]
        exact ih init v hv' hk
      · simp only [hx, ite_true]
        exact ih _ v hv' hk

lemma csvRow_ok_of_headers (headers : List JStr) (h : headers ≠ []) (item : JValue) :
    ∃ y, csvRow headers item = .ok y := by
  unfold csvRow
  rcases hobj : isJsObjectNonNull item with _ | _
  · simp only [hobj, Bool.false_eq_true, ite_false]
    have hlen : 1 ≤ headers.length := List.length_pos.mpr h
    unfold strRepeatJS
    rw [if_neg (by omega : ¬ ((headers.length : Int) - 1 < 0))]
    exact ⟨_, rfl⟩
  · simp only [hobj, ite_true]
    exact ⟨_, rfl⟩

lemma exceptMapM_ok {ε α β : Type} (f : α → Except ε β) :
    ∀ (l : List α), (∀ x ∈ l, ∃ y, f x = .ok y) → ∃ ys, l.mapM f = .ok ys := by
  intro l
  induction l with
  | nil => intro _; exact ⟨[], rfl⟩
  | cons x xs ih =>
    intro h
    obtain ⟨y, hy⟩ := h x (List.mem_cons_self x xs)
    obtain ⟨ys, hys⟩ := ih (fun a ha => h a (List.mem_cons_of_mem x ha))
    refine ⟨y :: ys, ?_⟩
    rw [List.mapM_cons, hy, hys]
    rfl

/-- C10. CSV generation on a non-empty list with no object-typed entry
(plain strings or numbers) has an empty header set, evaluates the
single-comma repeat at count -1, and exportToCsv surfaces the RangeError
instead of producing a file; as soon as some entry contributes a key the
generation and export succeed. -/
theorem csv_headerless_range_error (data : List JValue) (filename outputDir nowIso : JStr)
    (h1 : data ≠ []) :
    ((∀ v ∈ data, isJsObjectNonNull v = false) →
      exportToCsv data filename outputDir nowIso = .error CsvFailure.rangeError)
  ∧ ((∃ v ∈ data, jsKeys v ≠ []) →
      ∃ out, exportToCsv data filename outputDir nowIso = .ok out) := by
  constructor
  · intro hall
    rcases data with _ | ⟨x, xs⟩
    · exact absurd rfl h1
    · have hheads : csvHeaders (x :: xs) = [] :=
        csvHeaders_nil_of_nonobj (x :: xs) [] hall
      have hx := hall x (List.mem_cons_self x xs)
      have hrow : csvRow (csvHeaders (x :: xs)) x = .error () := by
        rw [hheads]
        unfold csvRow strRepeatJS
        simp only [hx, Bool.false_eq_true, ite_false]
        rfl
      have hgen : generateCsvContent (x :: xs) = .error () := by
        unfold generateCsvContent
        simp only [List.isEmpty_cons, Bool.false_eq_true, ite_false]
        rw [List.mapM_cons, hrow]
        rfl
      unfold exportToCsv
      simp [hgen]
  · rintro ⟨v, hv, hk⟩
    rcases data with _ | ⟨x, xs⟩
    · exact absurd rfl h1
    · have hheads : csvHeaders (x :: xs) ≠ [] :=
        csvHeaders_ne_nil_of_mem (x :: xs) [] v hv hk
      obtain ⟨rows, hrows⟩ := exceptMapM_ok (csvRow (csvHeaders (x :: xs))) (x :: xs)
        (fun item _ => csvRow_ok_of_headers _ hheads item)
      have hgen : ∃ out0, generateCsvContent (x :: xs) = .ok out0 := by
        unfold generateCsvContent
        simp only [List.isEmpty_cons, Bool.false_eq_true, ite_false]
        rw [hrows]
        exact ⟨_, rfl⟩
      obtain ⟨out0, hgen⟩ := hgen
      unfold exportToCsv
      simp [hgen]

/-- C3 (amended). The two services implement different policies on model
emptiness.  Tool variant: with the collaborator available, a raising or
empty model path makes extractDataBasedOnPrompt return the heuristic
extractBasicData records, and its orchestrator merges heuristic records
(deduplicated by the stringify key, capped at 50) whenever fewer than 10
records were extracted.  Strict AI-only variant: an empty extraction makes
processPromptRequest return the no-data failure outright, without any
heuristic fallback. -/
theorem fallback_policy_split :
    (∀ (isTest : Bool) (sd : ScrapedData) (p : ParsedPrompt) (originalPrompt : JStr)
       (oracle : Oracle) (xray : Except JStr JValue) (now : JStr),
       ((∃ e, (aiCore (minContentLengthTool isTest) sd p originalPrompt oracle).1 = .error e)
         ∨ (aiCore (minContentLengthTool isTest) sd p originalPrompt oracle).1 = .ok []) →
       extractDataBasedOnPromptTool isTest sd p originalPrompt (.ok true) oracle xray now
         = extractBasicData sd p now)
  ∧ (∀ (isTest : Bool) (req : PromptRequest) (parsed : ParsedPrompt) (sd : ScrapedData)
       (oracle : Oracle) (nowIso : JStr),
       (extractWithAI isTest sd parsed req.prompt oracle).1 = .ok [] →
       processPromptRequest isTest req parsed (.ok sd) (.ok true) oracle nowIso = noDataFailure)
  ∧ (∀ (isTest : Bool) (req : PromptRequest) (parsed : ParsedPrompt) (sd : ScrapedData)
       (avail : Except JStr Bool) (oracle : Oracle) (xray : Except JStr JValue) (nowIso : JStr),
       req.outputFormat = some (jstr "json") →
       (extractDataBasedOnPromptTool isTest sd parsed req.prompt avail oracle xray nowIso).length
           < 10 →
       (processPromptRequestTool isTest req parsed (.ok sd) avail oracle xray nowIso).success
           = true
       ∧ (processPromptRequestTool isTest req parsed (.ok sd) avail oracle xray nowIso).rdata
           = .records (mergeSupplement
               (extractDataBasedOnPromptTool isTest sd parsed req.prompt avail oracle xray nowIso)
               (extractBasicData sd parsed nowIso))) := by
  refine ⟨?_, ?_, ?_⟩
  · intro isTest sd p originalPrompt oracle xray now h
    unfold extractDataBasedOnPromptTool extractWithAITool
    rcases h with ⟨e, he⟩ | he
    · simp [he]
    · simp [he]
  · intro isTest req parsed sd oracle nowIso h
    simp [processPromptRequest, h]
  · intro isTest req parsed sd avail oracle xray nowIso h1 h2
    have hfmt : (req.outputFormat == some (jstr "csv") || req.outputFormat == none) = false := by
      rw [h1]
      decide
    simp only [processPromptRequestTool, hfmt, Bool.false_eq_true, ite_false, if_pos h2]
    exact ⟨trivial, trivial⟩

/-- Witness for C3's amended theorem on a blocked page: the tool variant
falls back to basic extraction, the strict variant reports the no-data
failure, and the tool orchestrator merges and succeeds. -/
theorem fallback_policy_split_witness :
    extractDataBasedOnPromptTool false blockedData wEmptyPrompt [] (.ok true) c3Oracle
        (.error (jstr "x")) (jstr "N")
      = extractBasicData blockedData wEmptyPrompt (jstr "N")
  ∧ processPromptRequest false c3Req wEmptyPrompt (.ok blockedData) (.ok true) c3Oracle (jstr "N")
      = noDataFailure
  ∧ (processPromptRequestTool false c3ReqJson wEmptyPrompt (.ok blockedData) (.ok true) c3Oracle
        (.error (jstr "x")) (jstr "N")).success = true :=
  ⟨fallback_policy_split.1 false blockedData wEmptyPrompt [] c3Oracle (.error (jstr "x"))
     (jstr "N") (Or.inr rfl),
   fallback_policy_split.2.1 false c3Req wEmptyPrompt blockedData c3Oracle (jstr "N") rfl,
   (fallback_policy_split.2.2 false c3ReqJson wEmptyPrompt blockedData (.ok true) c3Oracle
      (.error (jstr "x")) (jstr "N") rfl (by decide)).1⟩

/-- C3 counterexample: the strict AI-only service cited by the claim turns
model emptiness (here, the sufficiency gate on a challenge page) into the
outright no-data request failure, although the heuristic extractor would
have produced a record — no fallback or merge happens on this path. -/
theorem strict_no_fallback_counterexample :
    processPromptRequest false c3Req wEmptyPrompt (.ok blockedData) (.ok true) c3Oracle (jstr "N")
      = noDataFailure
  ∧ noDataFailure.success = false
  ∧ noDataFailure.errorMsg = some (jstr "Scraping failed - no data extracted")
  ∧ (extractBasicData blockedData wEmptyPrompt (jstr "N")).length = 1 :=
  ⟨rfl, rfl, rfl, rfl⟩

/-- Witness for C10: a lone plain string throws the RangeError, while a
one-key record exports successfully. -/
theorem csv_headerless_range_error_witness :
    exportToCsv [.str (jstr "a")] (jstr "f") (jstr "o") (jstr "T")
      = .error CsvFailure.rangeError
  ∧ ∃ out, exportToCsv [.obj [(jstr "k", .num 1)]] (jstr "f") (jstr "o") (jstr "T")
      = .ok out :=
  ⟨(csv_headerless_range_error [.str (jstr "a")] (jstr "f") (jstr "o") (jstr "T")
      (List.cons_ne_nil _ _)).1 (by
        intro v hv
        have hv' : v = .str (jstr "a") := List.mem_singleton.mp hv
        subst hv'
        rfl),
   (csv_headerless_range_error [.obj [(jstr "k", .num 1)]] (jstr "f") (jstr "o") (jstr "T")
      (List.cons_ne_nil _ _)).2
     ⟨.obj [(jstr "k", .num 1)], List.mem_cons_self _ _, by simp [jsKeys]⟩⟩

end AIScraper
